import Mathlib

/-!
# Verification of the `pyspcwebgw` state-synchronization core

Shallow embedding of `src/pyspcwebgw/__init__.py` (class `SpcWebGateway`).

Modelling conventions:
* Python/JSON values are modelled by the inductive `JVal`; Python truthiness
  by `pyTruthy`; Python dict indexing (which raises `KeyError`/`TypeError`)
  by `JVal.index` returning `Except String JVal`, where an `Except.error`
  models a raised exception propagating to the caller.
* Python dicts are association lists with unique keys, with first-match
  lookup (`dictGet`) and replace-or-append insertion (`dictSet`).
* The HTTP transport (`utils.async_request`, not under `src/`) is modelled,
  following the spec's failure policy, as a function `net : String → JVal`
  from the request path (relative to the gateway base URL, abstracting
  `urljoin` with the configured `api_url`) to the decoded response; a falsy
  response models a transport failure (the spec: transport errors are caught
  and converted to a falsy result).
* Python object identity is modelled by an allocation counter `nextRef` in
  the gateway state: every constructed `Area`/`Zone` carries the `ref` it
  was allocated with; two entities are "the same instance" iff their refs
  are equal.
-/

set_option maxHeartbeats 1000000

namespace SpcWeb

/-- A JSON-ish Python value (`None`, bool, int, str, list, dict). -/
inductive JVal where
  | null : JVal
  | b : Bool → JVal
  | n : Int → JVal
  | s : String → JVal
  | list : List JVal → JVal
  | obj : List (String × JVal) → JVal

mutual

/-- Structural (deep) equality of `JVal`s, i.e. Python `==` on JSON data. -/
def JVal.beq : JVal → JVal → Bool
  | .null, .null => true
  | .b x, .b y => x == y
  | .n x, .n y => x == y
  | .s x, .s y => x == y
  | .list xs, .list ys => JVal.beqL xs ys
  | .obj xs, .obj ys => JVal.beqO xs ys
  | _, _ => false

/-- Elementwise `JVal.beq` on lists. -/
def JVal.beqL : List JVal → List JVal → Bool
  | [], [] => true
  | x :: xs, y :: ys => JVal.beq x y && JVal.beqL xs ys
  | _, _ => false

/-- Elementwise `JVal.beq` on key/value lists. -/
def JVal.beqO : List (String × JVal) → List (String × JVal) → Bool
  | [], [] => true
  | (k, v) :: xs, (k', v') :: ys => k == k' && JVal.beq v v' && JVal.beqO xs ys
  | _, _ => false

end

mutual

theorem JVal.beq_iff : ∀ (a b : JVal), (JVal.beq a b = true) ↔ a = b
  | .null, .null => by simp [JVal.beq]
  | .null, .b _ => by simp [JVal.beq]
  | .null, .n _ => by simp [JVal.beq]
  | .null, .s _ => by simp [JVal.beq]
  | .null, .list _ => by simp [JVal.beq]
  | .null, .obj _ => by simp [JVal.beq]
  | .b _, .null => by simp [JVal.beq]
  | .b x, .b y => by simp [JVal.beq]
  | .b _, .n _ => by simp [JVal.beq]
  | .b _, .s _ => by simp [JVal.beq]
  | .b _, .list _ => by simp [JVal.beq]
  | .b _, .obj _ => by simp [JVal.beq]
  | .n _, .null => by simp [JVal.beq]
  | .n _, .b _ => by simp [JVal.beq]
  | .n x, .n y => by simp [JVal.beq]
  | .n _, .s _ => by simp [JVal.beq]
  | .n _, .list _ => by simp [JVal.beq]
  | .n _, .obj _ => by simp [JVal.beq]
  | .s _, .null => by simp [JVal.beq]
  | .s _, .b _ => by simp [JVal.beq]
  | .s _, .n _ => by simp [JVal.beq]
  | .s x, .s y => by simp [JVal.beq]
  | .s _, .list _ => by simp [JVal.beq]
  | .s _, .obj _ => by simp [JVal.beq]
  | .list _, .null => by simp [JVal.beq]
  | .list _, .b _ => by simp [JVal.beq]
  | .list _, .n _ => by simp [JVal.beq]
  | .list _, .s _ => by simp [JVal.beq]
  | .list xs, .list ys => by
      have h := JVal.beqL_iff xs ys
      simp [JVal.beq, h]
  | .list _, .obj _ => by simp [JVal.beq]
  | .obj _, .null => by simp [JVal.beq]
  | .obj _, .b _ => by simp [JVal.beq]
  | .obj _, .n _ => by simp [JVal.beq]
  | .obj _, .s _ => by simp [JVal.beq]
  | .obj _, .list _ => by simp [JVal.beq]
  | .obj xs, .obj ys => by
      have h := JVal.beqO_iff xs ys
      simp [JVal.beq, h]

theorem JVal.beqL_iff : ∀ (xs ys : List JVal), (JVal.beqL xs ys = true) ↔ xs = ys
  | [], [] => by simp [JVal.beqL]
  | [], _ :: _ => by simp [JVal.beqL]
  | _ :: _, [] => by simp [JVal.beqL]
  | x :: xs, y :: ys => by
      have h1 := JVal.beq_iff x y
      have h2 := JVal.beqL_iff xs ys
      simp [JVal.beqL, h1, h2]

theorem JVal.beqO_iff : ∀ (xs ys : List (String × JVal)), (JVal.beqO xs ys = true) ↔ xs = ys
  | [], [] => by simp [JVal.beqO]
  | [], _ :: _ => by simp [JVal.beqO]
  | _ :: _, [] => by simp [JVal.beqO]
  | (k, v) :: xs, (k', v') :: ys => by
      have h1 := JVal.beq_iff v v'
      have h2 := JVal.beqO_iff xs ys
      simp [JVal.beqO, h1, h2, Prod.ext_iff]

end

instance : DecidableEq JVal := fun a b => decidable_of_iff _ (JVal.beq_iff a b)

/-- Python truthiness (`bool(v)`): `None`, `False`, `0`, `""`, `[]`, `{}` are falsy. -/
def pyTruthy : JVal → Bool
  | .null => false
  | .b v => v
  | .n i => i != 0
  | .s t => t != ""
  | .list l => !l.isEmpty
  | .obj l => !l.isEmpty

/-- Python `str(v)` as used in URL interpolation (`"{}".format(v)`).
Only scalar values are ever interpolated by the code under verification. -/
def pyStr : JVal → String
  | .null => "None"
  | .b true => "True"
  | .b false => "False"
  | .n i => toString i
  | .s t => t
  | .list _ => "[...]"
  | .obj _ => "{...}"

/-- Python subscription `v[k]` with a string key: on a dict, looks the key up
and raises `KeyError` when missing; on any non-dict it raises `TypeError`. -/
def JVal.index : JVal → String → Except String JVal
  | .obj kvs, k =>
    match kvs.find? (fun p => p.1 = k) with
    | some p => .ok p.2
    | none => .error "KeyError"
  | _, _ => .error "TypeError"

/-- Python iteration `for x in v`: lists yield their elements, dicts their
keys, strings their characters; other values raise `TypeError`. -/
def pyIter : JVal → Except String (List JVal)
  | .list l => .ok l
  | .obj kvs => .ok (kvs.map (fun p => JVal.s p.1))
  | .s t => .ok (t.data.map (fun c => JVal.s (String.mk [c])))
  | _ => .error "TypeError"

/-- Python `in` for a SIA code value against a tuple of string literals
(`sia_code in Area.SUPPORTED_SIA_CODES`): equality only holds on strings. -/
def codeMem (v : JVal) (cs : List String) : Bool :=
  match v with
  | .s c => cs.contains c
  | _ => false

/-- Python dict lookup `d.get(k, None)`: first entry with the given key. -/
def dictGet {α : Type} (d : List (JVal × α)) (k : JVal) : Option α :=
  match d with
  | [] => none
  | p :: ps => if p.1 = k then some p.2 else dictGet ps k

/-- Python dict assignment `d[k] = v`: replace the entry in place when the
key is present, append otherwise. -/
def dictSet {α : Type} (d : List (JVal × α)) (k : JVal) (v : α) : List (JVal × α) :=
  match d with
  | [] => [(k, v)]
  | p :: ps => if p.1 = k then (k, v) :: ps else p :: dictSet ps k v

/-- Folding a batch of assignments into a dict (`d.update({...})`). -/
def dictSetAll {α : Type} (d : List (JVal × α)) (ps : List (JVal × α)) : List (JVal × α) :=
  ps.foldl (fun acc p => dictSet acc p.1 p.2) d

/-- The request path built by `_async_get_data` (source lines 139–142):
`spc/{resource}/{id}` when `id` is truthy, `spc/{resource}` otherwise.
Note the Python code tests `if id:` — truthiness, not presence. -/
def get_data_url (resource : String) (id : JVal) : String :=
  if pyTruthy id then "spc/" ++ resource ++ "/" ++ pyStr id
  else "spc/" ++ resource

/-- `SpcWebGateway._async_get_data` (source lines 137–156). `id = JVal.null`
models the Python default `id=None`. The transport result `net url` is
checked for truthiness (`if not data: return False`); then
`data['data'][resource]` is extracted (raising on a malformed body), and the
single-item/collection normalization of lines 146–156 is applied. -/
def async_get_data (net : String → JVal) (resource : String) (id : JVal) :
    Except String JVal :=
  let url := get_data_url resource id
  let data := net url
  if !pyTruthy data then .ok (.b false)
  else do
    let env ← data.index "data"
    let payload ← env.index resource
    if pyTruthy id then
      match payload with
      | .list [] => .error "IndexError"
      | .list (x :: _) => .ok x
      | p => .ok p
    else
      match payload with
      | .list l => .ok (.list l)
      | p => .ok p

/-- Modelled from the spec: the `Zone` entity (`pyspcwebgw/zone.py` is not
under `src/`). Per spec §3, a Zone has an identity `id` read from its
constructing record, a back-reference to its owning Area (non-owning,
modelled by the owner's allocation ref and id), and a mutable status
snapshot; `update(data, sia_code)` applies a fetched record keyed by the
triggering SIA code, modelled as appending the pair to the entity's state
log. `ref` models Python object identity. -/
structure Zone where
  ref : Nat
  id : JVal
  areaRef : Nat
  areaId : JVal
  raw : JVal
  updates : List (JVal × JVal)
deriving DecidableEq

/-- Modelled from the spec: the `Area` entity (`pyspcwebgw/area.py` is not
under `src/`). Per spec §3, an Area has an identity `id` and display `name`
read from its constructing record, exclusive ownership of its child Zones
(the `zones` list assigned at load time), and a mutable status snapshot;
`update(data, sia_code)` is modelled as for `Zone`. `ref` models Python
object identity. -/
structure Area where
  ref : Nat
  id : JVal
  name : JVal
  raw : JVal
  zones : List Zone
  updates : List (JVal × JVal)
deriving DecidableEq

/-- Modelled from the spec: `Area(self, spc_area)` reads the identity and
display name out of the constructing record (raising a `KeyError` when the
record lacks them), owning no zones yet. `ref` is the allocation counter. -/
def mkArea (ref : Nat) (rec : JVal) : Except String Area := do
  let i ← rec.index "id"
  let nm ← rec.index "name"
  .ok { ref := ref, id := i, name := nm, raw := rec, zones := [], updates := [] }

/-- Modelled from the spec: `Zone(area, spc_zone)` reads the identity out of
the constructing record and keeps a back-reference to the owning area. -/
def mkZone (ref : Nat) (owner : Area) (rec : JVal) : Except String Zone := do
  let i ← rec.index "id"
  .ok { ref := ref, id := i, areaRef := owner.ref, areaId := owner.id,
        raw := rec, updates := [] }

/-- Modelled from the spec: `entity.update(data, sia_code)` applies the
fetched record onto the Area's mutable state keyed by the triggering code. -/
def Area.update (a : Area) (data code : JVal) : Area :=
  { a with updates := a.updates ++ [(data, code)] }

/-- Modelled from the spec: `entity.update(data, sia_code)` applies the
fetched record onto the Zone's mutable state keyed by the triggering code. -/
def Zone.update (z : Zone) (data code : JVal) : Zone :=
  { z with updates := z.updates ++ [(data, code)] }

/-- The mutable state of a `SpcWebGateway` instance relevant to the verified
core: `_info`, the `_areas` and `_zones` registries (Python dicts keyed by
the vendor id), and the allocation counter modelling object identity. -/
structure Gateway where
  info : JVal
  areas : List (JVal × Area)
  zones : List (JVal × Zone)
  nextRef : Nat
deriving DecidableEq

/-- `SpcWebGateway.__init__`: `_info = None`, both registries empty. -/
def Gateway.init : Gateway :=
  { info := .null, areas := [], zones := [], nextRef := 0 }

/-- The per-area zone comprehension of source lines 69–70:
`[Zone(area, z) for z in zones if z['area'] == spc_area['id']]`, threading
the allocation counter. Each membership test indexes the zone record and the
area record (either may raise). -/
def buildZones (n : Nat) (owner : Area) (areaRec : JVal) :
    List JVal → Except String (List Zone × Nat)
  | [] => .ok ([], n)
  | z :: rest => do
    let za ← z.index "area"
    let aid ← areaRec.index "id"
    if za = aid then do
      let zone ← mkZone n owner z
      let (zs, n') ← buildZones (n + 1) owner areaRec rest
      .ok (zone :: zs, n')
    else
      buildZones n owner areaRec rest

/-- The area loop of `async_load_parameters` (source lines 67–73): for each
fetched area record, construct the `Area`, build its owned zone list from the
fetched zones value (iterated anew each time, as in the source), assign
`area.zones`, insert the area into `_areas` keyed by `area.id`, and merge
`{z.id: z for z in area_zones}` into `_zones`. -/
def loadAreas (zonesVal : JVal) : List JVal → Gateway → Except String Gateway
  | [], st => .ok st
  | rec :: rest, st => do
    let area0 ← mkArea st.nextRef rec
    let zrecs ← pyIter zonesVal
    let (azs, n') ← buildZones (st.nextRef + 1) area0 rec zrecs
    let area := { area0 with zones := azs }
    let st' : Gateway :=
      { st with
        areas := dictSet st.areas area.id area
        zones := dictSetAll st.zones (azs.map (fun z => (z.id, z)))
        nextRef := n' }
    loadAreas zonesVal rest st'

/-- `SpcWebGateway.async_load_parameters` (source lines 58–75): fetch panel
info (stored into `_info` before any check), then all zones and all areas;
return `False` if either is falsy; otherwise run the area loop and return
`True`. Transport behaviour is supplied by `net`. -/
def async_load_parameters (net : String → JVal) (st : Gateway) :
    Except String (Bool × Gateway) := do
  let info ← async_get_data net "panel" .null
  let st1 : Gateway := { st with info := info }
  let zones ← async_get_data net "zone" .null
  let areas ← async_get_data net "area" .null
  if !pyTruthy zones || !pyTruthy areas then
    .ok (false, st1)
  else do
    let areaRecs ← pyIter areas
    let st2 ← loadAreas zones areaRecs st1
    .ok (true, st2)

/-- Modelled from the spec: `const.AreaMode` (`pyspcwebgw/const.py` is not
under `src/`), the four arming modes {Unset, PartSetA, PartSetB, FullSet}. -/
inductive AreaMode where
  | unset
  | part_set_a
  | part_set_b
  | full_set
deriving DecidableEq

/-- The `AREA_MODE_COMMAND_MAP` of source lines 82–87. -/
def AREA_MODE_COMMAND_MAP : AreaMode → String
  | .unset => "unset"
  | .part_set_a => "set_a"
  | .part_set_b => "set_b"
  | .full_set => "set"

/-- A Python argument that either is an `AreaMode` instance or is any other
value (`isinstance(new_mode, AreaMode)` distinguishes the two). -/
inductive PyModeArg where
  | mode : AreaMode → PyModeArg
  | other : JVal → PyModeArg

/-- `SpcWebGateway.change_mode` (source lines 77–96). A non-`AreaMode`
argument raises `TypeError` before anything else; otherwise the PUT request
path `spc/area/{area_id}/{command}` is built and issued — the returned
`.ok` value is the path of the one network call performed, so an `.error`
result means no network call was made. The `area` argument is either an
`Area` handle or a raw id. -/
def change_mode (areaArg : Area ⊕ JVal) (new_mode : PyModeArg) :
    Except String String :=
  match new_mode with
  | .other _ => .error "TypeError"
  | .mode m =>
    let area_id : JVal :=
      match areaArg with
      | .inl a => a.id
      | .inr v => v
    .ok ("spc/area/" ++ pyStr area_id ++ "/" ++ AREA_MODE_COMMAND_MAP m)

/-- An entity targeted by the event router: either an Area or a Zone. -/
inductive Ent where
  | area : Area → Ent
  | zone : Zone → Ent
deriving DecidableEq

/-- The entity's `id` field (`entity.id` in source line 129). Reading `.id`
off `None` — which line 107/110 can put into the entity list — raises
`AttributeError`; that case is handled at the call site in `runEntities`. -/
def Ent.entId : Ent → JVal
  | .area a => a.id
  | .zone z => z.id

/-- `entity.update(data, sia_code)` dispatched on the entity kind. -/
def Ent.update (e : Ent) (data code : JVal) : Ent :=
  match e with
  | .area a => .area (a.update data code)
  | .zone z => .zone (z.update data code)

/-- In-place mutation of the entity found at registry slot `k`: the updated
object replaces the old one in the registry that holds it. -/
def Gateway.writeback (st : Gateway) (k : JVal) : Ent → Gateway
  | .area a => { st with areas := dictSet st.areas k a }
  | .zone z => { st with zones := dictSet st.zones k z }

/-- Result of one handled websocket message: the source returns `None` after
the debug log of line 119 (unsupported code), `None` after the error log of
line 123 (empty entity list), or the scheduled callback task list. -/
inductive HandlerRes where
  | notInterested : HandlerRes
  | unregisteredError : HandlerRes
  | done : List Ent → HandlerRes
deriving DecidableEq

/-- The scheduled callbacks carried by a handler result. -/
def HandlerRes.tasks : HandlerRes → List Ent
  | .done ts => ts
  | _ => []

/-- The per-entity loop of `_async_ws_handler` (source lines 126–135). Each
list element is `none` when line 107/110 produced a `None` entity (in which
case `entity.id` raises `AttributeError`), or the entity together with the
registry slot it lives in. For each entity: re-fetch via `_async_get_data`
(which may itself raise), apply `entity.update(data, sia_code)` (in-place,
modelled by `writeback`), and, when a subscriber callback is configured,
schedule it with the updated entity. -/
def runEntities (net : String → JVal) (cb : Bool) (resource : String)
    (code : JVal) :
    Gateway → List Ent → List (Option (JVal × Ent)) →
    Except String (Gateway × List Ent)
  | st, tasks, [] => .ok (st, tasks)
  | _, _, none :: _ => .error "AttributeError"
  | st, tasks, some (k, ent) :: rest => do
    let data ← async_get_data net resource ent.entId
    let ent' := ent.update data code
    let st' := st.writeback k ent'
    let tasks' := if cb then tasks ++ [ent'] else tasks
    runEntities net cb resource code st' tasks' rest

/-- `SpcWebGateway._async_ws_handler` (source lines 98–135). `areaCodes` and
`zoneCodes` stand for `Area.SUPPORTED_SIA_CODES` and
`Zone.SUPPORTED_SIA_CODES` (defined in `area.py`/`zone.py`, not under
`src/`; per spec §3 each entity type carries its supported-code set, so they
are parameters here). `cb` is the truthiness of `self._async_callback`.
The message's `data.sia` envelope is unpacked (raising on malformed
messages); the code is classified against the area set, the zone set, then
the `('CL', 'OP')` workaround pair; an unclassified code is logged at debug
level and dropped; an empty entity list is logged as an unregistered-id
error; otherwise every target entity is re-fetched, updated and scheduled. -/
def ws_handler (areaCodes zoneCodes : List String) (cb : Bool)
    (net : String → JVal) (st : Gateway) (msg : JVal) :
    Except String (Gateway × HandlerRes) := do
  let env ← msg.index "data"
  let sia ← env.index "sia"
  let spc_id ← sia.index "sia_address"
  let sia_code ← sia.index "sia_code"
  let branch : Option (List (Option (JVal × Ent)) × String) :=
    if codeMem sia_code areaCodes then
      some ([(dictGet st.areas spc_id).map (fun a => (spc_id, Ent.area a))],
        "area")
    else if codeMem sia_code zoneCodes then
      some ([(dictGet st.zones spc_id).map (fun z => (spc_id, Ent.zone z))],
        "zone")
    else if codeMem sia_code ["CL", "OP"] then
      some (st.areas.map (fun p => some (p.1, Ent.area p.2)), "area")
    else
      none
  match branch with
  | none => .ok (st, .notInterested)
  | some (entities, resource) =>
    if entities.isEmpty then
      .ok (st, .unregisteredError)
    else do
      let (st', tasks) ← runEntities net cb resource sia_code st [] entities
      .ok (st', .done tasks)

/-- A websocket push message carrying `data.sia.sia_address` and
`data.sia.sia_code` (spec §6's streaming push message contract). -/
def mkSiaMsg (addr code : JVal) : JVal :=
  .obj [("data", .obj [("sia",
    .obj [("sia_address", addr), ("sia_code", code)])])]

/-- Rightmost-wins lookup in a batch of assignments: the value the last
matching assignment of the batch would leave at key `k`. -/
def lookR {α : Type} : List (JVal × α) → JVal → Option α
  | [], _ => none
  | p :: ps, k =>
    match lookR ps k with
    | some v => some v
    | none => if p.1 = k then some p.2 else none

/-- Pure reading of what the area loop constructs: the batches of `_areas`
and `_zones` assignments it performs and the final allocation counter, as a
function of the fetched zones value, the area records and the counter alone.
`loadAreas_eq_buildAll` proves this equal to the stateful loop. -/
def buildAll (zonesVal : JVal) :
    List JVal → Nat →
    Except String (List (JVal × Area) × List (JVal × Zone) × Nat)
  | [], n => .ok ([], [], n)
  | rec :: rest, n => do
    let area0 ← mkArea n rec
    let zrecs ← pyIter zonesVal
    let (azs, n') ← buildZones (n + 1) area0 rec zrecs
    let area := { area0 with zones := azs }
    let (aps, zps, n'') ← buildAll zonesVal rest n'
    .ok ((area.id, area) :: aps, azs.map (fun z => (z.id, z)) ++ zps, n'')

/-- Renumbering a Zone's allocation refs by `d` (content unchanged). -/
def shiftZone (d : Nat) (z : Zone) : Zone :=
  { z with ref := z.ref + d, areaRef := z.areaRef + d }

/-- Renumbering an Area's allocation refs by `d` (content unchanged). -/
def shiftArea (d : Nat) (a : Area) : Area :=
  { a with ref := a.ref + d, zones := a.zones.map (shiftZone d) }

/-- Erasing a Zone's allocation identity, leaving its field content. -/
def Zone.content (z : Zone) : Zone :=
  { z with ref := 0, areaRef := 0 }

/-- Erasing an Area's allocation identity, leaving its field content. -/
def Area.content (a : Area) : Area :=
  { a with ref := 0, zones := a.zones.map Zone.content }

theorem exc_bind_ok {α β : Type} (x : α) (f : α → Except String β) :
    (Except.ok x >>= f : Except String β) = f x := rfl

theorem exc_bind_error {α β : Type} (e : String) (f : α → Except String β) :
    (Except.error e >>= f : Except String β) = Except.error e := rfl

theorem dictGet_dictSet {α : Type} (d : List (JVal × α)) (k0 k : JVal) (v : α) :
    dictGet (dictSet d k0 v) k = if k0 = k then some v else dictGet d k := by
  induction d with
  | nil => simp only [dictSet, dictGet]
  | cons p ps ih =>
    by_cases h : p.1 = k0
    · by_cases h2 : k0 = k
      · subst h2
        simp [dictSet, dictGet, h]
      · have hpk : ¬ p.1 = k := by rw [h]; exact h2
        simp [dictSet, dictGet, h, h2, hpk]
    · by_cases h2 : p.1 = k
      · have h3 : ¬ k0 = k := fun hc => h (h2.trans hc.symm)
        have h4 : ¬ k = k0 := fun hc => h3 hc.symm
        simp [dictSet, dictGet, h, h2, h3, h4]
      · simp [dictSet, dictGet, h, h2, ih]

theorem dictGet_dictSet_self {α : Type} (d : List (JVal × α)) (k : JVal)
    (v : α) : dictGet (dictSet d k v) k = some v := by
  simp [dictGet_dictSet]

theorem dictGet_dictSet_ne {α : Type} (d : List (JVal × α)) (k0 k : JVal)
    (v : α) (h : k ≠ k0) : dictGet (dictSet d k0 v) k = dictGet d k := by
  rw [dictGet_dictSet, if_neg (fun hc => h hc.symm)]

theorem dictSetAll_nil {α : Type} (d : List (JVal × α)) :
    dictSetAll d [] = d := rfl

theorem dictSetAll_cons {α : Type} (d : List (JVal × α)) (p : JVal × α)
    (ps : List (JVal × α)) :
    dictSetAll d (p :: ps) = dictSetAll (dictSet d p.1 p.2) ps := rfl

theorem dictSetAll_append {α : Type} (d : List (JVal × α))
    (ps qs : List (JVal × α)) :
    dictSetAll d (ps ++ qs) = dictSetAll (dictSetAll d ps) qs := by
  simp [dictSetAll, List.foldl_append]

theorem dictGet_dictSetAll {α : Type} (ps : List (JVal × α)) :
    ∀ (d : List (JVal × α)) (k : JVal),
    dictGet (dictSetAll d ps) k =
      match lookR ps k with
      | some v => some v
      | none => dictGet d k := by
  induction ps with
  | nil => intro d k; simp [dictSetAll, lookR]
  | cons p ps ih =>
    intro d k
    rw [dictSetAll_cons, ih]
    cases hr : lookR ps k with
    | some v => simp [lookR, hr]
    | none =>
      by_cases h : p.1 = k <;>
        simp [lookR, hr, h, dictGet_dictSet]

theorem lookR_map_snd {α β : Type} (f : α → β) (ps : List (JVal × α))
    (k : JVal) :
    lookR (ps.map (fun p => (p.1, f p.2))) k = (lookR ps k).map f := by
  induction ps with
  | nil => simp [lookR]
  | cons p ps ih =>
    cases hr : lookR ps k with
    | some v => simp [lookR, ih, hr]
    | none =>
      by_cases h : p.1 = k <;> simp [lookR, ih, hr, h]

theorem lookR_mem_values {α : Type} :
    ∀ (ps : List (JVal × α)) (k : JVal) (v : α),
    lookR ps k = some v → v ∈ ps.map Prod.snd
  | [], k, v, h => by simp [lookR] at h
  | p :: ps, k, v, h => by
    simp only [lookR] at h
    simp only [List.map_cons]
    cases hr : lookR ps k with
    | some w =>
      rw [hr] at h
      cases h
      exact List.mem_cons_of_mem _ (lookR_mem_values ps k _ hr)
    | none =>
      rw [hr] at h
      by_cases hk : p.1 = k
      · rw [if_pos hk] at h
        cases h
        exact List.mem_cons_self _ _
      · rw [if_neg hk] at h
        cases h

/-- C6: `change_mode` called with any value that is not an `AreaMode`
instance raises a `TypeError` synchronously; the `.error` result is produced
before the request path is ever built, so no network call is performed. -/
theorem c6_change_mode_rejects_non_mode (areaArg : Area ⊕ JVal) (v : JVal) :
    change_mode areaArg (.other v) = .error "TypeError" := rfl

/-- C10: `_async_get_data` tests the presence of `id` by truthiness
(`if id:`), so a falsy id — e.g. the integer `0` — selects the collection
endpoint `spc/{resource}` and behaves exactly like a call with no id at all:
an entity whose vendor id is `0` is never individually re-fetched. -/
theorem c10_falsy_id_uses_collection_endpoint (net : String → JVal)
    (resource : String) :
    get_data_url resource (.n 0) = "spc/" ++ resource
    ∧ async_get_data net resource (.n 0) =
        async_get_data net resource .null := by
  exact ⟨rfl, rfl⟩

/-- A truthy response body with no `data` envelope at all. -/
def bodyNoEnvelope : JVal := .obj [("status", .s "ok")]

/-- C2 counterexample: the fetcher does raise. On a truthy response body
that lacks the `data` envelope, `_async_get_data` raises a `KeyError`
(modelled by the `.error` result, an exception propagating to the caller)
instead of returning a falsy value. -/
theorem c2_counterexample_missing_envelope_raises :
    async_get_data (fun _ => bodyNoEnvelope) "zone" .null =
      .error "KeyError" := rfl

/-- C2 (amended): whenever the transport yields a falsy result — which is
how transport failures surface — `_async_get_data` returns `False` without
raising; but a truthy body lacking the `data` envelope or the resource-kind
key raises a `KeyError`, and a single-item fetch whose payload is an empty
list raises an `IndexError` (see the C2/C7 counterexamples). -/
theorem c2_amended_falsy_transport_returns_false (net : String → JVal)
    (resource : String) (id : JVal)
    (h : pyTruthy (net (get_data_url resource id)) = false) :
    async_get_data net resource id = .ok (.b false) := by
  simp [async_get_data, h]

theorem c2_amended_falsy_transport_returns_false_witness :
    pyTruthy ((fun _ => JVal.null) (get_data_url "zone" .null)) = false
    ∧ async_get_data (fun _ => JVal.null) "zone" .null = .ok (.b false) :=
  ⟨rfl, c2_amended_falsy_transport_returns_false (fun _ => JVal.null)
    "zone" .null rfl⟩

/-- A single-area response whose payload list is empty. -/
def bodyEmptyAreaList : JVal := .obj [("data", .obj [("area", .list [])])]

/-- C7 counterexample: on a single-item fetch whose payload under
`data[resource]` is an *empty* list, the fetcher does not return a first
element — `data['data'][resource][0]` raises an `IndexError`. -/
theorem c7_counterexample_empty_list_raises :
    async_get_data (fun _ => bodyEmptyAreaList) "area" (.n 1) =
      .error "IndexError" := rfl

/-- C7 (amended): on a single-item fetch (truthy id), if the payload under
`data[resource_kind]` is a nonempty list the fetcher returns its first
element, if it is the empty list an `IndexError` is raised, and otherwise
the payload is returned directly. -/
theorem c7_amended_single_item_normalization (net : String → JVal)
    (resource : String) (id payload : JVal)
    (hid : pyTruthy id = true)
    (hnet : net ("spc/" ++ resource ++ "/" ++ pyStr id) =
      .obj [("data", .obj [(resource, payload)])]) :
    async_get_data net resource id =
      match payload with
      | .list [] => .error "IndexError"
      | .list (x :: _) => .ok x
      | p => .ok p := by
  have hurl : get_data_url resource id =
      "spc/" ++ resource ++ "/" ++ pyStr id := by
    simp [get_data_url, hid]
  have henv : ∀ x : JVal, pyTruthy (.obj [("data", x)]) = true :=
    fun _ => rfl
  cases payload with
  | list l =>
    cases l with
    | nil =>
      simp [async_get_data, hurl, hnet, henv, JVal.index, hid,
        exc_bind_ok, List.find?]
    | cons x xs =>
      simp [async_get_data, hurl, hnet, henv, JVal.index, hid,
        exc_bind_ok, List.find?]
  | null =>
    simp [async_get_data, hurl, hnet, henv, JVal.index, hid,
      exc_bind_ok, List.find?]
  | b v =>
    simp [async_get_data, hurl, hnet, henv, JVal.index, hid,
      exc_bind_ok, List.find?]
  | n i =>
    simp [async_get_data, hurl, hnet, henv, JVal.index, hid,
      exc_bind_ok, List.find?]
  | s t =>
    simp [async_get_data, hurl, hnet, henv, JVal.index, hid,
      exc_bind_ok, List.find?]
  | obj l =>
    simp [async_get_data, hurl, hnet, henv, JVal.index, hid,
      exc_bind_ok, List.find?]

theorem c7_amended_single_item_normalization_witness :
    pyTruthy (.n 7) = true
    ∧ (fun _ => JVal.obj [("data",
        JVal.obj [("area", JVal.list [JVal.obj [("id", JVal.n 7)]])])])
        ("spc/" ++ "area" ++ "/" ++ pyStr (.n 7)) =
        JVal.obj [("data", JVal.obj [("area",
          JVal.list [JVal.obj [("id", JVal.n 7)]])])]
    ∧ async_get_data
        (fun _ => JVal.obj [("data", JVal.obj [("area",
          JVal.list [JVal.obj [("id", JVal.n 7)]])])]) "area" (.n 7) =
        .ok (JVal.obj [("id", JVal.n 7)]) :=
  ⟨rfl, rfl,
    c7_amended_single_item_normalization _ "area" (.n 7)
      (JVal.list [JVal.obj [("id", JVal.n 7)]]) rfl rfl⟩

/-- C1 (the code contradicts its intended error path): for a push message
whose SIA code is in the Area supported-code set (resp. the Zone set) but
whose id is not registered, line 107 (resp. 110) builds the one-element list
`[None]`, which is truthy, so the `if not entities` guard of line 122 —
whose error log names exactly this situation — never fires; the loop then
evaluates `entity.id` on `None` and the handler crashes with an
`AttributeError` instead of logging and stopping cleanly. -/
theorem c1_unregistered_id_crashes (areaCodes zoneCodes : List String)
    (cb : Bool) (net : String → JVal) (st : Gateway) (addr : JVal)
    (c : String)
    (h : (c ∈ areaCodes ∧ dictGet st.areas addr = none)
       ∨ (c ∉ areaCodes ∧ c ∈ zoneCodes
          ∧ dictGet st.zones addr = none)) :
    ws_handler areaCodes zoneCodes cb net st (mkSiaMsg addr (.s c)) =
      .error "AttributeError" := by
  rcases h with ⟨h1, h2⟩ | ⟨h1, h2, h3⟩
  · simp [ws_handler, mkSiaMsg, JVal.index, List.find?, exc_bind_ok,
      exc_bind_error, codeMem, h1, h2, runEntities]
  · simp [ws_handler, mkSiaMsg, JVal.index, List.find?, exc_bind_ok,
      exc_bind_error, codeMem, h1, h2, h3, runEntities]

theorem c1_unregistered_id_crashes_witness :
    ((("BA" ∈ ["BA"]
        ∧ dictGet Gateway.init.areas (.n 7) = none)
      ∨ ("BA" ∉ ["BA"] ∧ "BA" ∈ ([] : List String)
        ∧ dictGet Gateway.init.zones (.n 7) = none)))
    ∧ ws_handler ["BA"] [] true (fun _ => JVal.null) Gateway.init
        (mkSiaMsg (.n 7) (.s "BA")) = .error "AttributeError" :=
  ⟨Or.inl ⟨by decide, rfl⟩,
    c1_unregistered_id_crashes ["BA"] [] true (fun _ => JVal.null)
      Gateway.init (.n 7) "BA" (Or.inl ⟨by decide, rfl⟩)⟩

/-- C5: for a push message whose SIA code is in the Area supported-code set
and whose id is registered, exactly the one matching Area is re-fetched and
updated with the fetched record and the triggering code, the zones registry
and every other area slot are untouched, and (the callback being configured)
exactly one callback is scheduled carrying that updated Area. -/
theorem c5_area_code_registered_single_refresh
    (areaCodes zoneCodes : List String) (net : String → JVal) (st : Gateway)
    (addr : JVal) (c : String) (a : Area) (v : JVal)
    (hc : c ∈ areaCodes)
    (hfound : dictGet st.areas addr = some a)
    (hnet : async_get_data net "area" a.id = .ok v) :
    ws_handler areaCodes zoneCodes true net st (mkSiaMsg addr (.s c)) =
      .ok ({ st with areas := dictSet st.areas addr (a.update v (.s c)) },
        .done [.area (a.update v (.s c))])
    ∧ (∀ k, k ≠ addr →
        dictGet (dictSet st.areas addr (a.update v (.s c))) k =
          dictGet st.areas k) := by
  constructor
  · simp [ws_handler, mkSiaMsg, JVal.index, List.find?, exc_bind_ok,
      codeMem, hc, hfound, runEntities, hnet, Ent.entId, Ent.update,
      Gateway.writeback]
  · intro k hk
    exact dictGet_dictSet_ne _ _ _ _ hk

/-- A one-area test registry used by the witnesses below. -/
def areaA3 : Area :=
  { ref := 0, id := .n 3, name := .s "A", raw := .null, zones := [],
    updates := [] }

/-- A gateway whose area registry holds exactly `areaA3` under key `3`. -/
def gwA3 : Gateway :=
  { info := .null, areas := [(.n 3, areaA3)], zones := [], nextRef := 1 }

theorem c5_area_code_registered_single_refresh_witness :
    ("BA" ∈ ["BA"])
    ∧ (dictGet gwA3.areas (.n 3) = some areaA3)
    ∧ (async_get_data (fun _ => JVal.null) "area" areaA3.id = .ok (.b false))
    ∧ (ws_handler ["BA"] [] true (fun _ => JVal.null) gwA3
          (mkSiaMsg (.n 3) (.s "BA")) =
        .ok ({ gwA3 with
                areas := dictSet gwA3.areas (.n 3)
                  (areaA3.update (.b false) (.s "BA")) },
          .done [.area (areaA3.update (.b false) (.s "BA"))])
      ∧ (∀ k, k ≠ JVal.n 3 →
          dictGet (dictSet gwA3.areas (.n 3)
              (areaA3.update (.b false) (.s "BA"))) k =
            dictGet gwA3.areas k)) :=
  ⟨by decide, rfl, rfl,
    c5_area_code_registered_single_refresh ["BA"] [] (fun _ => JVal.null)
      gwA3 (.n 3) "BA" areaA3 (.b false) (by decide) rfl rfl⟩

theorem dictSet_append_left {α : Type} (front d : List (JVal × α)) (k : JVal)
    (v : α) (h : k ∉ front.map Prod.fst) :
    dictSet (front ++ d) k v = front ++ dictSet d k v := by
  induction front with
  | nil => rfl
  | cons p ps ih =>
    simp only [List.map_cons, List.mem_cons, not_or] at h
    have hp : ¬ p.1 = k := fun hc => h.1 hc.symm
    simp [List.cons_append, dictSet, hp, ih h.2]

/-- Running the per-entity loop over the full area registry (`entities =
self._areas.values()`), when every single-area fetch yields a result `fv i`:
every area is updated in place and one callback per area is scheduled, in
registry order. `front` is the already-processed prefix of the registry. -/
theorem runEntities_all_areas (net : String → JVal) (code : JVal)
    (fv : JVal → JVal)
    (hnet : ∀ i, async_get_data net "area" i = .ok (fv i)) :
    ∀ (l front : List (JVal × Area)) (st : Gateway) (tasks : List Ent),
    st.areas = front ++ l →
    ((front ++ l).map Prod.fst).Nodup →
    runEntities net true "area" code st tasks
        (l.map (fun p => some (p.1, Ent.area p.2))) =
      .ok ({ st with areas :=
          front ++ l.map (fun p => (p.1, p.2.update (fv p.2.id) code)) },
        tasks ++ l.map (fun p => Ent.area (p.2.update (fv p.2.id) code)))
  | [], front, st, tasks, hst, _ => by
    have hfr : front = st.areas := by rw [hst, List.append_nil]
    subst hfr
    simp [runEntities]
  | (k, a) :: l, front, st, tasks, hst, hnd => by
    have hkfront : k ∉ front.map Prod.fst := by
      rw [List.map_append] at hnd
      have hdisj := (List.nodup_append.mp hnd).2.2
      intro hmem
      exact hdisj hmem (by simp)
    have hstep : dictSet st.areas k (a.update (fv a.id) code) =
        front ++ (k, a.update (fv a.id) code) :: l := by
      rw [hst, dictSet_append_left _ _ _ _ hkfront]
      simp [dictSet]
    have hnd' : (((front ++ [(k, a.update (fv a.id) code)]) ++ l).map
        Prod.fst).Nodup := by
      have : ((front ++ [(k, a.update (fv a.id) code)]) ++ l).map Prod.fst =
          ((front ++ (k, a) :: l).map Prod.fst) := by
        simp
      rw [this]
      exact hnd
    have ih := runEntities_all_areas net code fv hnet l
      (front ++ [(k, a.update (fv a.id) code)])
      { st with areas := front ++ (k, a.update (fv a.id) code) :: l }
      (tasks ++ [Ent.area (a.update (fv a.id) code)])
      (by simp) hnd'
    simp only [List.map_cons, runEntities, Ent.entId, hnet, exc_bind_ok,
      Ent.update, Gateway.writeback, hstep, if_true]
    rw [ih]
    simp

/-- C4: for a push message whose SIA code is `'CL'` or `'OP'` (and in
neither supported-code set), every Area currently in the registry is
re-fetched and updated with the triggering code and (the callback being
configured) one callback per registered Area is scheduled — whatever the
message's id field holds (`addr` does not occur on the right-hand side).
With an empty registry the `if not entities` guard fires instead: zero
areas are refreshed and zero callbacks scheduled. -/
theorem c4_cl_op_refreshes_all_areas (areaCodes zoneCodes : List String)
    (net : String → JVal) (fv : JVal → JVal) (st : Gateway) (addr : JVal)
    (c : String)
    (hca : c ∉ areaCodes)
    (hcz : c ∉ zoneCodes)
    (hc : c = "CL" ∨ c = "OP")
    (hkeys : (st.areas.map Prod.fst).Nodup)
    (hnet : ∀ i, async_get_data net "area" i = .ok (fv i)) :
    ws_handler areaCodes zoneCodes true net st (mkSiaMsg addr (.s c)) =
      if st.areas.isEmpty then .ok (st, .unregisteredError)
      else .ok ({ st with
                   areas := st.areas.map
                     (fun p => (p.1, p.2.update (fv p.2.id) (.s c))) },
        .done (st.areas.map
            (fun p => Ent.area (p.2.update (fv p.2.id) (.s c))))) := by
  have hcl : codeMem (.s c) ["CL", "OP"] = true := by
    rcases hc with h | h <;> simp [codeMem, h]
  cases hst : st.areas with
  | nil =>
    simp [ws_handler, mkSiaMsg, JVal.index, List.find?, exc_bind_ok,
      codeMem, hca, hcz, hcl, hc, hst]
  | cons p ps =>
    have hrun := runEntities_all_areas net (.s c) fv hnet st.areas [] st []
      (by simp) (by simpa using hkeys)
    rw [hst] at hrun
    simp only [List.map_cons, List.nil_append] at hrun
    simp [ws_handler, mkSiaMsg, JVal.index, List.find?, exc_bind_ok,
      codeMem, hca, hcz, hcl, hc, hst, hrun]

theorem c4_cl_op_refreshes_all_areas_witness :
    ("CL" ∉ ["BA"])
    ∧ ("CL" ∉ ([] : List String))
    ∧ ("CL" = "CL" ∨ "CL" = "OP")
    ∧ ((gwA3.areas.map Prod.fst).Nodup
      ∧ (∀ i, async_get_data (fun _ => JVal.null) "area" i =
          .ok (.b false)))
    ∧ ws_handler ["BA"] [] true (fun _ => JVal.null) gwA3
        (mkSiaMsg (.s "user99") (.s "CL")) =
      .ok ({ gwA3 with
            areas := [(.n 3, areaA3.update (.b false) (.s "CL"))] },
        .done [.area (areaA3.update (.b false) (.s "CL"))]) := by
  refine ⟨by decide, by decide, Or.inl rfl, ⟨by simp [gwA3], fun i => rfl⟩, ?_⟩
  have h := c4_cl_op_refreshes_all_areas ["BA"] [] (fun _ => JVal.null)
    (fun _ => JVal.b false) gwA3 (.s "user99") "CL" (by decide) (by decide)
    (Or.inl rfl) (by simp [gwA3]) (fun i => rfl)
  simpa [gwA3, areaA3] using h

/-- Zone record `{id: 1, area: 10}` of the C8 round-trip fixture. -/
def zrec1 : JVal := .obj [("id", .n 1), ("area", .n 10)]

/-- Zone record `{id: 2, area: 10}` of the C8 round-trip fixture. -/
def zrec2 : JVal := .obj [("id", .n 2), ("area", .n 10)]

/-- Area record `{id: 10, name: "Home"}` of the C8 round-trip fixture. -/
def arec10 : JVal := .obj [("id", .n 10), ("name", .s "Home")]

/-- Panel response of the C8 fixture. -/
def presp8 : JVal :=
  .obj [("data", .obj [("panel", .obj [("type", .s "SPC4000")])])]

/-- Zone collection response of the C8 fixture. -/
def zresp8 : JVal := .obj [("data", .obj [("zone", .list [zrec1, zrec2])])]

/-- Area collection response of the C8 fixture. -/
def aresp8 : JVal := .obj [("data", .obj [("area", .list [arec10])])]

/-- Transport serving the C8 fixture responses. -/
def net8 : String → JVal := fun url =>
  if url = "spc/zone" then zresp8
  else if url = "spc/area" then aresp8
  else presp8

/-- Zone 1 as constructed by the first load (allocation ref 1, owner ref 0). -/
def zone8a : Zone :=
  { ref := 1, id := .n 1, areaRef := 0, areaId := .n 10, raw := zrec1,
    updates := [] }

/-- Zone 2 as constructed by the first load (allocation ref 2, owner ref 0). -/
def zone8b : Zone :=
  { ref := 2, id := .n 2, areaRef := 0, areaId := .n 10, raw := zrec2,
    updates := [] }

/-- Area 10 as constructed by the first load, owning zones 1 and 2. -/
def area8 : Area :=
  { ref := 0, id := .n 10, name := .s "Home", raw := arec10,
    zones := [zone8a, zone8b], updates := [] }

/-- The gateway state after the first load of the C8 fixture. -/
def st8 : Gateway :=
  { info := .obj [("type", .s "SPC4000")],
    areas := [(.n 10, area8)],
    zones := [(.n 1, zone8a), (.n 2, zone8b)],
    nextRef := 3 }

/-- C8: loading panel info with zones `[{id:1, area:10}, {id:2, area:10}]`
and areas `[{id:10, name:"Home"}]` from a fresh gateway yields exactly one
Area, keyed `10`, owning exactly Zones 1 and 2; both zones are in the zone
registry and each zone's back-reference (owner allocation ref and owner id)
points at that Area. -/
theorem c8_round_trip :
    async_load_parameters net8 Gateway.init = .ok (true, st8)
    ∧ st8.areas.map Prod.fst = [.n 10]
    ∧ dictGet st8.areas (.n 10) = some area8
    ∧ area8.zones = [zone8a, zone8b]
    ∧ area8.zones.map Zone.id = [.n 1, .n 2]
    ∧ st8.zones.map Prod.fst = [.n 1, .n 2]
    ∧ dictGet st8.zones (.n 1) = some zone8a
    ∧ dictGet st8.zones (.n 2) = some zone8b
    ∧ zone8a.areaRef = area8.ref ∧ zone8a.areaId = area8.id
    ∧ zone8b.areaRef = area8.ref ∧ zone8b.areaId = area8.id :=
  ⟨rfl, rfl, rfl, rfl, rfl, rfl, rfl, rfl, rfl, rfl, rfl, rfl⟩

theorem exc_map_ok {α β : Type} (x : α) (f : α → β) :
    (Except.ok x : Except String α).map f = .ok (f x) := rfl

theorem exc_map_error {α β : Type} (e : String) (f : α → β) :
    (Except.error e : Except String α).map f = .error e := rfl

/-- The stateful area loop equals the pure construction `buildAll` followed
by folding its assignment batches into the registries. -/
theorem loadAreas_eq_buildAll (zonesVal : JVal) :
    ∀ (recs : List JVal) (st : Gateway),
    loadAreas zonesVal recs st =
      (buildAll zonesVal recs st.nextRef).map
        (fun t => { st with
                     areas := dictSetAll st.areas t.1,
                     zones := dictSetAll st.zones t.2.1,
                     nextRef := t.2.2 })
  | [], st => by
    simp [loadAreas, buildAll, exc_map_ok, dictSetAll_nil]
  | rec :: rest, st => by
    rw [loadAreas, buildAll]
    cases ha : mkArea st.nextRef rec with
    | error e => simp [ha, exc_bind_error, exc_map_error]
    | ok area0 =>
      cases hi : pyIter zonesVal with
      | error e => simp [ha, hi, exc_bind_ok, exc_bind_error, exc_map_error]
      | ok zrecs =>
        cases hz : buildZones (st.nextRef + 1) area0 rec zrecs with
        | error e =>
          simp [ha, hi, hz, exc_bind_ok, exc_bind_error, exc_map_error]
        | ok azn =>
          obtain ⟨azs, n'⟩ := azn
          have ih := loadAreas_eq_buildAll zonesVal rest
            { st with
               areas := dictSet st.areas area0.id
                 { area0 with zones := azs },
               zones := dictSetAll st.zones (azs.map (fun z => (z.id, z))),
               nextRef := n' }
          dsimp only at ih
          simp only [ha, hi, hz, exc_bind_ok] at ih ⊢
          rw [ih]
          cases hb : buildAll zonesVal rest n' with
          | error e => simp [hb, exc_bind_error, exc_map_error]
          | ok t =>
            obtain ⟨aps, zps, n''⟩ := t
            simp [hb, exc_bind_ok, exc_map_ok, dictSetAll_cons,
              dictSetAll_append]

/-- `isSome` of a dict lookup survives any single assignment. -/
theorem dictGet_isSome_dictSet {α : Type} (d : List (JVal × α)) (k0 k : JVal)
    (v : α) (h : (dictGet d k).isSome = true) :
    (dictGet (dictSet d k0 v) k).isSome = true := by
  rw [dictGet_dictSet]
  by_cases hk : k0 = k <;> simp [hk, h]

/-- `isSome` of a dict lookup survives any batch of assignments. -/
theorem dictGet_isSome_dictSetAll {α : Type} (ps : List (JVal × α)) :
    ∀ (d : List (JVal × α)) (k : JVal),
    (dictGet d k).isSome = true →
    (dictGet (dictSetAll d ps) k).isSome = true := by
  induction ps with
  | nil => intro d k h; simpa [dictSetAll_nil] using h
  | cons p ps ih =>
    intro d k h
    rw [dictSetAll_cons]
    exact ih _ _ (dictGet_isSome_dictSet _ _ _ _ h)

theorem lookR_isSome_of_mem {α : Type} (ps : List (JVal × α)) (k : JVal)
    (v : α) (h : (k, v) ∈ ps) : (lookR ps k).isSome = true := by
  induction ps with
  | nil => cases h
  | cons p ps ih =>
    simp only [lookR]
    cases hr : lookR ps k with
    | some w => simp
    | none =>
      rcases List.mem_cons.mp h with h1 | h2
      · subst h1
        simp
      · have := ih h2
        rw [hr] at this
        cases this

/-- A key assigned somewhere in a batch is present after folding it in. -/
theorem dictGet_isSome_dictSetAll_mem {α : Type} (ps d : List (JVal × α))
    (k : JVal) (v : α) (h : (k, v) ∈ ps) :
    (dictGet (dictSetAll d ps) k).isSome = true := by
  rw [dictGet_dictSetAll]
  cases hr : lookR ps k with
  | some w => simp
  | none =>
    have := lookR_isSome_of_mem ps k v h
    rw [hr] at this
    cases this

/-- A present key stays present through the whole area loop. -/
theorem loadAreas_areas_isSome_mono (zonesVal : JVal) :
    ∀ (recs : List JVal) (st st' : Gateway) (k : JVal),
    loadAreas zonesVal recs st = .ok st' →
    (dictGet st.areas k).isSome = true →
    (dictGet st'.areas k).isSome = true
  | [], st, st', k, h, hk => by
    simp only [loadAreas] at h
    cases h
    exact hk
  | rec :: rest, st, st', k, h, hk => by
    rw [loadAreas] at h
    cases ha : mkArea st.nextRef rec with
    | error e => simp only [ha, exc_bind_error] at h; simp at h
    | ok area0 =>
      simp only [ha, exc_bind_ok] at h
      cases hi : pyIter zonesVal with
      | error e => simp only [hi, exc_bind_error] at h; simp at h
      | ok zrecs =>
        simp only [hi, exc_bind_ok] at h
        cases hz : buildZones (st.nextRef + 1) area0 rec zrecs with
        | error e => simp only [hz, exc_bind_error] at h; simp at h
        | ok azn =>
          simp only [hz, exc_bind_ok] at h
          obtain ⟨azs, n'⟩ := azn
          try dsimp only at h
          exact loadAreas_areas_isSome_mono zonesVal rest _ st' k h
            (dictGet_isSome_dictSet _ _ _ _ hk)

/-- A present zone key stays present through the whole area loop. -/
theorem loadAreas_zones_isSome_mono (zonesVal : JVal) :
    ∀ (recs : List JVal) (st st' : Gateway) (k : JVal),
    loadAreas zonesVal recs st = .ok st' →
    (dictGet st.zones k).isSome = true →
    (dictGet st'.zones k).isSome = true
  | [], st, st', k, h, hk => by
    simp only [loadAreas] at h
    cases h
    exact hk
  | rec :: rest, st, st', k, h, hk => by
    rw [loadAreas] at h
    cases ha : mkArea st.nextRef rec with
    | error e => simp only [ha, exc_bind_error] at h; simp at h
    | ok area0 =>
      simp only [ha, exc_bind_ok] at h
      cases hi : pyIter zonesVal with
      | error e => simp only [hi, exc_bind_error] at h; simp at h
      | ok zrecs =>
        simp only [hi, exc_bind_ok] at h
        cases hz : buildZones (st.nextRef + 1) area0 rec zrecs with
        | error e => simp only [hz, exc_bind_error] at h; simp at h
        | ok azn =>
          simp only [hz, exc_bind_ok] at h
          obtain ⟨azs, n'⟩ := azn
          try dsimp only at h
          exact loadAreas_zones_isSome_mono zonesVal rest _ st' k h
            (dictGet_isSome_dictSetAll _ _ _ hk)

/-- Every fetched area record's id ends up as a key of the area registry. -/
theorem loadAreas_area_ids (zonesVal : JVal) :
    ∀ (recs : List JVal) (st st' : Gateway),
    loadAreas zonesVal recs st = .ok st' →
    ∀ rec, rec ∈ recs → ∀ i, rec.index "id" = .ok i →
    (dictGet st'.areas i).isSome = true
  | [], _, _, _, rec, hrec, _, _ => absurd hrec (List.not_mem_nil rec)
  | r :: rest, st, st', h, rec, hrec, i, hi => by
    rw [loadAreas] at h
    cases ha : mkArea st.nextRef r with
    | error e => simp only [ha, exc_bind_error] at h; simp at h
    | ok area0 =>
      simp only [ha, exc_bind_ok] at h
      cases hit : pyIter zonesVal with
      | error e => simp only [hit, exc_bind_error] at h; simp at h
      | ok zrecs =>
        simp only [hit, exc_bind_ok] at h
        cases hz : buildZones (st.nextRef + 1) area0 r zrecs with
        | error e => simp only [hz, exc_bind_error] at h; simp at h
        | ok azn =>
          simp only [hz, exc_bind_ok] at h
          obtain ⟨azs, n'⟩ := azn
          try dsimp only at h
          rcases List.mem_cons.mp hrec with heq | hmem
          · subst heq
            have hid : area0.id = i := by
              rw [mkArea] at ha
              simp only [hi, exc_bind_ok] at ha
              cases hn : rec.index "name" with
              | error e => simp only [hn, exc_bind_error] at ha; simp at ha
              | ok nm =>
                simp only [hn, exc_bind_ok] at ha
                cases ha
                rfl
            have hbase : (dictGet (dictSet st.areas area0.id
                { area0 with zones := azs }) i).isSome = true := by
              rw [← hid, dictGet_dictSet_self]
              rfl
            exact loadAreas_areas_isSome_mono zonesVal rest _ st' i h hbase
          · exact loadAreas_area_ids zonesVal rest _ st' h rec hmem i hi

/-- A zone record matching an area record's id yields a constructed Zone
with the record's id in the zone comprehension's output. -/
theorem buildZones_finds :
    ∀ (zrecs : List JVal) (n : Nat) (owner : Area) (areaRec : JVal)
      (azs : List Zone) (n' : Nat),
    buildZones n owner areaRec zrecs = .ok (azs, n') →
    ∀ z, z ∈ zrecs → ∀ za zi aid,
    z.index "area" = .ok za → z.index "id" = .ok zi →
    areaRec.index "id" = .ok aid → za = aid →
    ∃ zz, zz ∈ azs ∧ zz.id = zi
  | [], _, _, _, _, _, _, z, hz, _, _, _, _, _, _, _ =>
      absurd hz (List.not_mem_nil z)
  | zr :: rest, n, owner, areaRec, azs, n', h, z, hzmem, za, zi, aid,
      hza, hzi, haid, heq => by
    rw [buildZones] at h
    rcases List.mem_cons.mp hzmem with rfl | hmem
    · simp only [hza, exc_bind_ok] at h
      simp only [haid, exc_bind_ok] at h
      rw [if_pos heq] at h
      rw [mkZone] at h
      simp only [hzi, exc_bind_ok] at h
      cases hrest : buildZones (n + 1) owner areaRec rest with
      | error e => simp only [hrest, exc_bind_error] at h; simp at h
      | ok t =>
        obtain ⟨zs, n2⟩ := t
        simp only [hrest, exc_bind_ok] at h
        try dsimp only at h
        cases h
        exact ⟨_, List.mem_cons_self _ _, rfl⟩
    · cases hza0 : zr.index "area" with
      | error e => simp only [hza0, exc_bind_error] at h; simp at h
      | ok za0 =>
        simp only [hza0, exc_bind_ok] at h
        cases haid0 : areaRec.index "id" with
        | error e => simp only [haid0, exc_bind_error] at h; simp at h
        | ok aid0 =>
          simp only [haid0, exc_bind_ok] at h
          by_cases hcond : za0 = aid0
          · rw [if_pos hcond] at h
            rw [mkZone] at h
            cases hzi0 : zr.index "id" with
            | error e => simp only [hzi0, exc_bind_error] at h; simp at h
            | ok zi0 =>
              simp only [hzi0, exc_bind_ok] at h
              cases hrest : buildZones (n + 1) owner areaRec rest with
              | error e => simp only [hrest, exc_bind_error] at h; simp at h
              | ok t =>
                obtain ⟨zs, n2⟩ := t
                simp only [hrest, exc_bind_ok] at h
                try dsimp only at h
                cases h
                obtain ⟨zz, hzz, hid⟩ := buildZones_finds rest (n + 1) owner
                  areaRec _ _ hrest z hmem za zi aid hza hzi haid heq
                exact ⟨zz, List.mem_cons_of_mem _ hzz, hid⟩
          · rw [if_neg hcond] at h
            exact buildZones_finds rest n owner areaRec azs n' h z hmem
              za zi aid hza hzi haid heq

/-- Every zone record whose `area` field matches some fetched area record's
id ends up in the zone registry under its own id. -/
theorem loadAreas_zone_pop (zonesVal : JVal) :
    ∀ (recs : List JVal) (st st' : Gateway),
    loadAreas zonesVal recs st = .ok st' →
    ∀ zrecs, pyIter zonesVal = .ok zrecs →
    ∀ z, z ∈ zrecs → ∀ zi za,
    z.index "id" = .ok zi → z.index "area" = .ok za →
    (∃ rec, rec ∈ recs ∧ rec.index "id" = .ok za) →
    (dictGet st'.zones zi).isSome = true
  | [], _, _, _, _, _, _, _, _, _, _, _, hex =>
      absurd hex.choose_spec.1 (List.not_mem_nil hex.choose)
  | r :: rest, st, st', h, zrecs, hit, z, hzmem, zi, za, hzi, hza, hex => by
    rw [loadAreas] at h
    cases ha : mkArea st.nextRef r with
    | error e => simp only [ha, exc_bind_error] at h; simp at h
    | ok area0 =>
      simp only [ha, exc_bind_ok] at h
      simp only [hit, exc_bind_ok] at h
      cases hzb : buildZones (st.nextRef + 1) area0 r zrecs with
      | error e => simp only [hzb, exc_bind_error] at h; simp at h
      | ok azn =>
        simp only [hzb, exc_bind_ok] at h
        obtain ⟨azs, n'⟩ := azn
        try dsimp only at h
        obtain ⟨rec, hrecmem, hrecid⟩ := hex
        rcases List.mem_cons.mp hrecmem with rfl | hmem
        · obtain ⟨zz, hzz, hzzid⟩ := buildZones_finds zrecs
            (st.nextRef + 1) area0 rec azs n' hzb z hzmem za zi za hza hzi
            hrecid rfl
          have hbase : (dictGet (dictSetAll st.zones
              (azs.map (fun w => (w.id, w)))) zi).isSome = true := by
            apply dictGet_isSome_dictSetAll_mem _ _ zi zz
            rw [← hzzid]
            exact List.mem_map_of_mem _ hzz
          exact loadAreas_zones_isSome_mono zonesVal rest _ st' zi h hbase
        · exact loadAreas_zone_pop zonesVal rest _ st' h zrecs hit z hzmem
            zi za hzi hza ⟨rec, hmem, hrecid⟩

/-- Inversion of `async_load_parameters` on a non-raising run. -/
theorem load_inv (net : String → JVal) (st : Gateway) (r : Bool)
    (st' : Gateway) (h : async_load_parameters net st = .ok (r, st')) :
    ∃ iv zv av, async_get_data net "panel" .null = .ok iv
      ∧ async_get_data net "zone" .null = .ok zv
      ∧ async_get_data net "area" .null = .ok av
      ∧ (((!pyTruthy zv || !pyTruthy av) = true ∧ r = false
            ∧ st' = { st with info := iv })
        ∨ ((!pyTruthy zv || !pyTruthy av) = false ∧ r = true
            ∧ ∃ recs, pyIter av = .ok recs
              ∧ loadAreas zv recs { st with info := iv } = .ok st')) := by
  rw [async_load_parameters] at h
  cases hp : async_get_data net "panel" .null with
  | error e => simp only [hp, exc_bind_error] at h; simp at h
  | ok iv =>
    simp only [hp, exc_bind_ok] at h
    cases hz : async_get_data net "zone" .null with
    | error e => simp only [hz, exc_bind_error] at h; simp at h
    | ok zv =>
      simp only [hz, exc_bind_ok] at h
      cases ha : async_get_data net "area" .null with
      | error e => simp only [ha, exc_bind_error] at h; simp at h
      | ok av =>
        simp only [ha, exc_bind_ok] at h
        try dsimp only at h
        refine ⟨iv, zv, av, rfl, rfl, rfl, ?_⟩
        by_cases hcond : (!pyTruthy zv || !pyTruthy av) = true
        · rw [if_pos hcond] at h
          simp only [Except.ok.injEq, Prod.mk.injEq] at h
          exact Or.inl ⟨hcond, h.1.symm, h.2.symm⟩
        · rw [if_neg hcond] at h
          cases hr : pyIter av with
          | error e => simp only [hr, exc_bind_error] at h; simp at h
          | ok recs =>
            simp only [hr, exc_bind_ok] at h
            cases hl : loadAreas zv recs { st with info := iv } with
            | error e => simp only [hl, exc_bind_error] at h; simp at h
            | ok st2 =>
              simp only [hl, exc_bind_ok, Except.ok.injEq,
                Prod.mk.injEq] at h
              refine Or.inr ⟨by simpa using hcond, h.1.symm, recs, rfl, ?_⟩
              rw [← h.2]
              exact hl

/-- Forward run of `async_load_parameters` on the success path. -/
theorem load_run (net : String → JVal) (st : Gateway) (iv zv av : JVal)
    (recs : List JVal) (st2 : Gateway)
    (hp : async_get_data net "panel" .null = .ok iv)
    (hz : async_get_data net "zone" .null = .ok zv)
    (ha : async_get_data net "area" .null = .ok av)
    (htz : pyTruthy zv = true) (hta : pyTruthy av = true)
    (hrecs : pyIter av = .ok recs)
    (hload : loadAreas zv recs { st with info := iv } = .ok st2) :
    async_load_parameters net st = .ok (true, st2) := by
  rw [async_load_parameters]
  simp only [hp, hz, ha, exc_bind_ok]
  simp [htz, hta, hrecs, hload, exc_bind_ok]

/-- C3: with empty registries, if the fetched zone list or area list is
falsy (absent or empty) the load returns `False` and both registries stay
empty — no partial population; and whenever the load returns `True`, the
area registry holds an entry for every fetched area record's id and the
zone registry holds an entry for every fetched zone record whose `area`
field matches some fetched area record's id. -/
theorem c3_load_failure_empty_success_populates (net : String → JVal)
    (st : Gateway) (hA : st.areas = []) (hZ : st.zones = [])
    (iv zv av : JVal)
    (hp : async_get_data net "panel" .null = .ok iv)
    (hz : async_get_data net "zone" .null = .ok zv)
    (ha : async_get_data net "area" .null = .ok av) :
    ((pyTruthy zv = false ∨ pyTruthy av = false) →
      async_load_parameters net st = .ok (false, { st with info := iv })
      ∧ ({ st with info := iv } : Gateway).areas = []
      ∧ ({ st with info := iv } : Gateway).zones = [])
    ∧ (∀ st', async_load_parameters net st = .ok (true, st') →
        ∀ recs, pyIter av = .ok recs →
        (∀ rec, rec ∈ recs → ∀ i, rec.index "id" = .ok i →
          (dictGet st'.areas i).isSome = true)
        ∧ (∀ zrecs, pyIter zv = .ok zrecs →
            ∀ z, z ∈ zrecs → ∀ zi za,
            z.index "id" = .ok zi → z.index "area" = .ok za →
            (∃ rec, rec ∈ recs ∧ rec.index "id" = .ok za) →
            (dictGet st'.zones zi).isSome = true)) := by
  constructor
  · intro hfalsy
    have hcond : (!pyTruthy zv || !pyTruthy av) = true := by
      rcases hfalsy with hf | hf <;> simp [hf]
    refine ⟨?_, by simpa using hA, by simpa using hZ⟩
    rw [async_load_parameters]
    simp only [hp, hz, ha, exc_bind_ok]
    rw [if_pos hcond]
  · intro st' h recs hrecs
    obtain ⟨iv', zv', av', hp', hz', ha', hdisj⟩ := load_inv net st true st' h
    rw [hp] at hp'
    rw [hz] at hz'
    rw [ha] at ha'
    cases hp'
    cases hz'
    cases ha'
    rcases hdisj with ⟨_, hfalse, _⟩ | ⟨_, _, recs', hrecs', hload⟩
    · cases hfalse
    · rw [hrecs] at hrecs'
      cases hrecs'
      constructor
      · intro rec hrec i hi
        exact loadAreas_area_ids zv recs _ st' hload rec hrec i hi
      · intro zrecs hzrecs z hzmem zi za hzi hza hex
        exact loadAreas_zone_pop zv recs _ st' hload zrecs hzrecs z hzmem
          zi za hzi hza hex

theorem c3_load_failure_empty_success_populates_witness :
    (Gateway.init.areas = []) ∧ (Gateway.init.zones = [])
    ∧ (async_get_data (fun _ => JVal.null) "panel" .null = .ok (.b false))
    ∧ (async_get_data (fun _ => JVal.null) "zone" .null = .ok (.b false))
    ∧ (async_get_data (fun _ => JVal.null) "area" .null = .ok (.b false))
    ∧ (((pyTruthy (.b false) = false ∨ pyTruthy (.b false) = false) →
        async_load_parameters (fun _ => JVal.null) Gateway.init =
          .ok (false, { Gateway.init with info := .b false })
        ∧ ({ Gateway.init with info := JVal.b false } : Gateway).areas = []
        ∧ ({ Gateway.init with info := JVal.b false } : Gateway).zones = [])
      ∧ (∀ st', async_load_parameters (fun _ => JVal.null) Gateway.init =
            .ok (true, st') →
          ∀ recs, pyIter (.b false) = .ok recs →
          (∀ rec, rec ∈ recs → ∀ i, rec.index "id" = .ok i →
            (dictGet st'.areas i).isSome = true)
          ∧ (∀ zrecs, pyIter (.b false) = .ok zrecs →
              ∀ z, z ∈ zrecs → ∀ zi za,
              z.index "id" = .ok zi → z.index "area" = .ok za →
              (∃ rec, rec ∈ recs ∧ rec.index "id" = .ok za) →
              (dictGet st'.zones zi).isSome = true))) :=
  ⟨rfl, rfl, rfl, rfl, rfl,
    c3_load_failure_empty_success_populates (fun _ => JVal.null)
      Gateway.init rfl rfl (.b false) (.b false) (.b false) rfl rfl rfl⟩

theorem content_shiftZone (d : Nat) (z : Zone) :
    (shiftZone d z).content = z.content := rfl

theorem content_shiftArea (d : Nat) (a : Area) :
    (shiftArea d a).content = a.content := by
  simp [shiftArea, Area.content, List.map_map, Function.comp,
    content_shiftZone]

theorem mkArea_shift (n d : Nat) (rec : JVal) :
    mkArea (n + d) rec = (mkArea n rec).map (shiftArea d) := by
  rw [mkArea, mkArea]
  cases hi : rec.index "id" with
  | error e => simp [hi, exc_bind_error, exc_map_error]
  | ok i =>
    simp only [hi, exc_bind_ok]
    cases hn : rec.index "name" with
    | error e => simp [hn, exc_bind_error, exc_map_error]
    | ok nm => simp [hn, exc_bind_ok, exc_map_ok, shiftArea]

theorem buildZones_shift (d : Nat) (owner : Area) (areaRec : JVal) :
    ∀ (zrecs : List JVal) (n : Nat),
    buildZones (n + d) (shiftArea d owner) areaRec zrecs =
      (buildZones n owner areaRec zrecs).map
        (fun t => (t.1.map (shiftZone d), t.2 + d))
  | [], n => by simp [buildZones, exc_map_ok]
  | zr :: rest, n => by
    rw [buildZones, buildZones]
    cases hza : zr.index "area" with
    | error e => simp [hza, exc_bind_error, exc_map_error]
    | ok za =>
      simp only [hza, exc_bind_ok]
      cases haid : areaRec.index "id" with
      | error e => simp [haid, exc_bind_error, exc_map_error]
      | ok aid =>
        simp only [haid, exc_bind_ok]
        by_cases hc : za = aid
        · rw [if_pos hc, if_pos hc]
          rw [mkZone, mkZone]
          cases hzi : zr.index "id" with
          | error e => simp [hzi, exc_bind_error, exc_map_error]
          | ok zi =>
            simp only [hzi, exc_bind_ok]
            have hn1 : n + d + 1 = n + 1 + d := by omega
            rw [hn1]
            rw [buildZones_shift d owner areaRec rest (n + 1)]
            cases hb : buildZones (n + 1) owner areaRec rest with
            | error e => simp [exc_map_error, exc_bind_error]
            | ok t =>
              obtain ⟨zs, n'⟩ := t
              simp [exc_map_ok, exc_bind_ok, shiftZone, shiftArea]
        · rw [if_neg hc, if_neg hc]
          exact buildZones_shift d owner areaRec rest n

theorem buildAll_shift (zonesVal : JVal) (d : Nat) :
    ∀ (recs : List JVal) (n : Nat),
    buildAll zonesVal recs (n + d) =
      (buildAll zonesVal recs n).map
        (fun t => (t.1.map (fun p => (p.1, shiftArea d p.2)),
                   t.2.1.map (fun p => (p.1, shiftZone d p.2)),
                   t.2.2 + d))
  | [], n => by simp [buildAll, exc_map_ok]
  | rec :: rest, n => by
    rw [buildAll, buildAll]
    rw [mkArea_shift n d rec]
    cases ha : mkArea n rec with
    | error e => simp [ha, exc_map_error, exc_bind_error]
    | ok area0 =>
      simp only [ha, exc_map_ok, exc_bind_ok]
      cases hi : pyIter zonesVal with
      | error e => simp [hi, exc_bind_error, exc_map_error]
      | ok zrecs =>
        simp only [hi, exc_bind_ok]
        have hn1 : n + d + 1 = n + 1 + d := by omega
        rw [hn1, buildZones_shift d area0 rec zrecs (n + 1)]
        cases hz : buildZones (n + 1) area0 rec zrecs with
        | error e => simp [exc_map_error, exc_bind_error]
        | ok t =>
          obtain ⟨azs, n'⟩ := t
          simp only [exc_map_ok, exc_bind_ok]
          try dsimp only
          rw [buildAll_shift zonesVal d rest n']
          cases hb : buildAll zonesVal rest n' with
          | error e => simp [exc_map_error, exc_bind_error]
          | ok t2 =>
            obtain ⟨aps, zps, n''⟩ := t2
            simp [exc_map_ok, exc_bind_ok, shiftArea, shiftZone,
              List.map_map, Function.comp]

theorem buildZones_bounds :
    ∀ (zrecs : List JVal) (n : Nat) (owner : Area) (areaRec : JVal)
      (azs : List Zone) (n' : Nat),
    buildZones n owner areaRec zrecs = .ok (azs, n') →
    n ≤ n' ∧ ∀ z, z ∈ azs → n ≤ z.ref ∧ z.ref < n'
  | [], n, owner, areaRec, azs, n', h => by
    rw [buildZones] at h
    simp only [Except.ok.injEq, Prod.mk.injEq] at h
    refine ⟨h.2 ▸ Nat.le_refl n, ?_⟩
    intro z hzz
    rw [← h.1] at hzz
    cases hzz
  | zr :: rest, n, owner, areaRec, azs, n', h => by
    rw [buildZones] at h
    cases hza : zr.index "area" with
    | error e => simp only [hza, exc_bind_error] at h; simp at h
    | ok za =>
      simp only [hza, exc_bind_ok] at h
      cases haid : areaRec.index "id" with
      | error e => simp only [haid, exc_bind_error] at h; simp at h
      | ok aid =>
        simp only [haid, exc_bind_ok] at h
        by_cases hc : za = aid
        · rw [if_pos hc] at h
          rw [mkZone] at h
          cases hzi : zr.index "id" with
          | error e => simp only [hzi, exc_bind_error] at h; simp at h
          | ok zi =>
            simp only [hzi, exc_bind_ok] at h
            cases hrest : buildZones (n + 1) owner areaRec rest with
            | error e => simp only [hrest, exc_bind_error] at h; simp at h
            | ok t =>
              obtain ⟨zs, n2⟩ := t
              simp only [hrest, exc_bind_ok] at h
              try dsimp only at h
              simp only [Except.ok.injEq, Prod.mk.injEq] at h
              obtain ⟨h1, h2⟩ := h
              have hb := buildZones_bounds rest (n + 1) owner areaRec zs n2
                hrest
              have hb1 := hb.1
              subst h2
              refine ⟨by omega, ?_⟩
              intro z hzz
              rw [← h1] at hzz
              rcases List.mem_cons.mp hzz with rfl | hm
              · exact ⟨Nat.le_refl _, by dsimp only; omega⟩
              · have := hb.2 z hm
                omega
        · rw [if_neg hc] at h
          exact buildZones_bounds rest n owner areaRec azs n' h

theorem buildAll_bounds (zonesVal : JVal) :
    ∀ (recs : List JVal) (n : Nat)
      (aps : List (JVal × Area)) (zps : List (JVal × Zone)) (n'' : Nat),
    buildAll zonesVal recs n = .ok (aps, zps, n'') →
    n ≤ n''
    ∧ (∀ p, p ∈ aps → n ≤ p.2.ref ∧ p.2.ref < n'')
    ∧ (∀ p, p ∈ zps → n ≤ p.2.ref ∧ p.2.ref < n'')
  | [], n, aps, zps, n'', h => by
    rw [buildAll] at h
    simp only [Except.ok.injEq, Prod.mk.injEq] at h
    obtain ⟨h1, h2, h3⟩ := h
    refine ⟨h3 ▸ Nat.le_refl n, ?_, ?_⟩
    · intro p hp; rw [← h1] at hp; cases hp
    · intro p hp; rw [← h2] at hp; cases hp
  | rec :: rest, n, aps, zps, n'', h => by
    rw [buildAll] at h
    cases ha : mkArea n rec with
    | error e => simp only [ha, exc_bind_error] at h; simp at h
    | ok area0 =>
      simp only [ha, exc_bind_ok] at h
      have haref : area0.ref = n := by
        rw [mkArea] at ha
        cases hi : rec.index "id" with
        | error e => simp only [hi, exc_bind_error] at ha; simp at ha
        | ok i =>
          simp only [hi, exc_bind_ok] at ha
          cases hn : rec.index "name" with
          | error e => simp only [hn, exc_bind_error] at ha; simp at ha
          | ok nm =>
            simp only [hn, exc_bind_ok] at ha
            cases ha
            rfl
      cases hit : pyIter zonesVal with
      | error e => simp only [hit, exc_bind_error] at h; simp at h
      | ok zrecs =>
        simp only [hit, exc_bind_ok] at h
        cases hz : buildZones (n + 1) area0 rec zrecs with
        | error e => simp only [hz, exc_bind_error] at h; simp at h
        | ok t =>
          obtain ⟨azs, n'⟩ := t
          simp only [hz, exc_bind_ok] at h
          cases hb : buildAll zonesVal rest n' with
          | error e => simp only [hb, exc_bind_error] at h; simp at h
          | ok t2 =>
            obtain ⟨aps2, zps2, n2⟩ := t2
            simp only [hb, exc_bind_ok] at h
            try dsimp only at h
            simp only [Except.ok.injEq, Prod.mk.injEq] at h
            obtain ⟨h1, h2, h3⟩ := h
            have hzb := buildZones_bounds zrecs (n + 1) area0 rec azs n' hz
            have hab := buildAll_bounds zonesVal rest n' aps2 zps2 n2 hb
            subst h3
            refine ⟨by have := hzb.1; have := hab.1; omega, ?_, ?_⟩
            · intro p hp
              rw [← h1] at hp
              rcases List.mem_cons.mp hp with rfl | hm
              · have := hzb.1
                have := hab.1
                constructor
                · dsimp only
                  omega
                · dsimp only
                  omega
              · have := hab.2.1 p hm
                have := hzb.1
                omega
            · intro p hp
              rw [← h2] at hp
              rcases List.mem_append.mp hp with hm | hm
              · obtain ⟨z, hzmem, hzp⟩ := List.mem_map.mp hm
                have := hzb.2 z hzmem
                have := hab.1
                rw [← hzp]
                constructor
                · dsimp only
                  omega
                · dsimp only
                  omega
              · have := hab.2.2 p hm
                have := hzb.1
                omega

theorem dictGet_dictSetAll_nil {α : Type} (ps : List (JVal × α)) (k : JVal) :
    dictGet (dictSetAll ([] : List (JVal × α)) ps) k = lookR ps k := by
  rw [dictGet_dictSetAll]
  cases lookR ps k <;> simp [dictGet]

/-- Conclusion of the load-twice (C9) theorem: the second load also returns
`True`; the two registries hold the same key set with entity content equal
field-for-field (`Area.content`/`Zone.content` erase allocation identity,
nothing else); and every second-load entity is a fresh instance — its
allocation ref differs from every first-load entity's ref. -/
def loadTwiceOk (st₁ st₂ : Gateway) (r : Bool) : Prop :=
  r = true
  ∧ (∀ k, (dictGet st₂.areas k).map Area.content =
      (dictGet st₁.areas k).map Area.content)
  ∧ (∀ k, (dictGet st₂.zones k).map Zone.content =
      (dictGet st₁.zones k).map Zone.content)
  ∧ (∀ k k' a₂ a₁, dictGet st₂.areas k = some a₂ →
      dictGet st₁.areas k' = some a₁ → a₂.ref ≠ a₁.ref)
  ∧ (∀ k k' z₂ z₁, dictGet st₂.zones k = some z₂ →
      dictGet st₁.zones k' = some z₁ → z₂.ref ≠ z₁.ref)

/-- C9: starting from empty registries, loading twice against identical
upstream data succeeds both times and leaves a registry with the same set
of entity ids and equal field content, the entities of the second load
being fresh instances (no allocation ref shared with the first load's). -/
theorem c9_load_twice_same_content_fresh_instances (net : String → JVal)
    (st : Gateway) (hA : st.areas = []) (hZ : st.zones = [])
    (st₁ : Gateway) (r : Bool) (st₂ : Gateway)
    (h1 : async_load_parameters net st = .ok (true, st₁))
    (h2 : async_load_parameters net st₁ = .ok (r, st₂)) :
    loadTwiceOk st₁ st₂ r := by
  obtain ⟨iv, zv, av, hp, hz, ha, hdisj⟩ := load_inv net st true st₁ h1
  rcases hdisj with ⟨_, hfalse, _⟩ | ⟨hcond, _, recs, hrecs, hload1⟩
  · cases hfalse
  · obtain ⟨htz, hta⟩ : pyTruthy zv = true ∧ pyTruthy av = true := by
      simpa using hcond
    rw [loadAreas_eq_buildAll] at hload1
    cases hb : buildAll zv recs
        ({ st with info := iv } : Gateway).nextRef with
    | error e => simp only [hb, exc_map_error] at hload1; simp at hload1
    | ok t =>
      obtain ⟨aps, zps, n₁⟩ := t
      simp only [hb, exc_map_ok, Except.ok.injEq] at hload1
      have hst1 : st₁ =
          { info := iv, areas := dictSetAll [] aps,
            zones := dictSetAll [] zps, nextRef := n₁ } := by
        rw [← hload1]
        try dsimp only
        rw [hA, hZ]
      have hb' : buildAll zv recs st.nextRef = .ok (aps, zps, n₁) := hb
      have hbounds := buildAll_bounds zv recs st.nextRef aps zps n₁ hb'
      have hle : st.nextRef ≤ n₁ := hbounds.1
      have hd : st.nextRef + (n₁ - st.nextRef) = n₁ := by omega
      have hb2 := buildAll_shift zv (n₁ - st.nextRef) recs st.nextRef
      rw [hd, hb'] at hb2
      simp only [exc_map_ok] at hb2
      have hload2 : loadAreas zv recs { st₁ with info := iv } =
          .ok { info := iv,
                areas := dictSetAll st₁.areas (aps.map
                  (fun p => (p.1, shiftArea (n₁ - st.nextRef) p.2))),
                zones := dictSetAll st₁.zones (zps.map
                  (fun p => (p.1, shiftZone (n₁ - st.nextRef) p.2))),
                nextRef := n₁ + (n₁ - st.nextRef) } := by
        rw [loadAreas_eq_buildAll]
        have hn : ({ st₁ with info := iv } : Gateway).nextRef = n₁ := by
          rw [hst1]
        rw [hn, hb2, exc_map_ok]
      have hrun2 := load_run net st₁ iv zv av recs _ hp hz ha htz hta
        hrecs hload2
      rw [hrun2] at h2
      simp only [Except.ok.injEq, Prod.mk.injEq] at h2
      obtain ⟨hr, hst2⟩ := h2
      have e1a : ∀ k, dictGet st₁.areas k = lookR aps k := by
        intro k
        rw [hst1]
        exact dictGet_dictSetAll_nil aps k
      have e1z : ∀ k, dictGet st₁.zones k = lookR zps k := by
        intro k
        rw [hst1]
        exact dictGet_dictSetAll_nil zps k
      have e2a_some : ∀ k a, lookR aps k = some a →
          dictGet st₂.areas k = some (shiftArea (n₁ - st.nextRef) a) := by
        intro k a hl
        rw [← hst2]
        try dsimp only
        rw [dictGet_dictSetAll, lookR_map_snd, hl]
        simp
      have e2a_none : ∀ k, lookR aps k = none →
          dictGet st₂.areas k = dictGet st₁.areas k := by
        intro k hl
        rw [← hst2]
        try dsimp only
        rw [dictGet_dictSetAll, lookR_map_snd, hl]
        simp
      have e2z_some : ∀ k z, lookR zps k = some z →
          dictGet st₂.zones k = some (shiftZone (n₁ - st.nextRef) z) := by
        intro k z hl
        rw [← hst2]
        try dsimp only
        rw [dictGet_dictSetAll, lookR_map_snd, hl]
        simp
      have e2z_none : ∀ k, lookR zps k = none →
          dictGet st₂.zones k = dictGet st₁.zones k := by
        intro k hl
        rw [← hst2]
        try dsimp only
        rw [dictGet_dictSetAll, lookR_map_snd, hl]
        simp
      have hlook2a : ∀ k a₂, dictGet st₂.areas k = some a₂ →
          ∃ a, lookR aps k = some a
            ∧ a₂ = shiftArea (n₁ - st.nextRef) a := by
        intro k a₂ hk
        cases hl : lookR aps k with
        | some a =>
          rw [e2a_some k a hl] at hk
          cases hk
          exact ⟨a, rfl, rfl⟩
        | none =>
          rw [e2a_none k hl, e1a k, hl] at hk
          cases hk
      have hlook2z : ∀ k z₂, dictGet st₂.zones k = some z₂ →
          ∃ z, lookR zps k = some z
            ∧ z₂ = shiftZone (n₁ - st.nextRef) z := by
        intro k z₂ hk
        cases hl : lookR zps k with
        | some z =>
          rw [e2z_some k z hl] at hk
          cases hk
          exact ⟨z, rfl, rfl⟩
        | none =>
          rw [e2z_none k hl, e1z k, hl] at hk
          cases hk
      refine ⟨hr.symm, ?_, ?_, ?_, ?_⟩
      · intro k
        cases hl : lookR aps k with
        | some a =>
          rw [e2a_some k a hl, e1a k, hl]
          simp [content_shiftArea]
        | none =>
          rw [e2a_none k hl]
      · intro k
        cases hl : lookR zps k with
        | some z =>
          rw [e2z_some k z hl, e1z k, hl]
          simp [content_shiftZone]
        | none =>
          rw [e2z_none k hl]
      · intro k k' a₂ a₁ h₂ h₁
        rw [e1a k'] at h₁
        obtain ⟨p₁, hp₁, hpe₁⟩ :=
          List.mem_map.mp (lookR_mem_values aps k' a₁ h₁)
        have hb₁ := hbounds.2.1 p₁ hp₁
        rw [hpe₁] at hb₁
        obtain ⟨a, hla, hsh⟩ := hlook2a k a₂ h₂
        obtain ⟨p₂, hp₂, hpe₂⟩ :=
          List.mem_map.mp (lookR_mem_values aps k a hla)
        have hb₂ := hbounds.2.1 p₂ hp₂
        rw [hpe₂] at hb₂
        rw [hsh]
        simp only [shiftArea]
        omega
      · intro k k' z₂ z₁ h₂ h₁
        rw [e1z k'] at h₁
        obtain ⟨p₁, hp₁, hpe₁⟩ :=
          List.mem_map.mp (lookR_mem_values zps k' z₁ h₁)
        have hb₁ := hbounds.2.2 p₁ hp₁
        rw [hpe₁] at hb₁
        obtain ⟨z, hlz, hsh⟩ := hlook2z k z₂ h₂
        obtain ⟨p₂, hp₂, hpe₂⟩ :=
          List.mem_map.mp (lookR_mem_values zps k z hlz)
        have hb₂ := hbounds.2.2 p₂ hp₂
        rw [hpe₂] at hb₂
        rw [hsh]
        simp only [shiftZone]
        omega

/-- Zone 1 as constructed by the second load (fresh ref 4, owner ref 3). -/
def zone8a2 : Zone :=
  { ref := 4, id := .n 1, areaRef := 3, areaId := .n 10, raw := zrec1,
    updates := [] }

/-- Zone 2 as constructed by the second load (fresh ref 5, owner ref 3). -/
def zone8b2 : Zone :=
  { ref := 5, id := .n 2, areaRef := 3, areaId := .n 10, raw := zrec2,
    updates := [] }

/-- Area 10 as constructed by the second load (fresh ref 3). -/
def area8b : Area :=
  { ref := 3, id := .n 10, name := .s "Home", raw := arec10,
    zones := [zone8a2, zone8b2], updates := [] }

/-- The gateway state after loading the C8 fixture a second time. -/
def st8b : Gateway :=
  { info := .obj [("type", .s "SPC4000")],
    areas := [(.n 10, area8b)],
    zones := [(.n 1, zone8a2), (.n 2, zone8b2)],
    nextRef := 6 }

theorem c9_load_twice_same_content_fresh_instances_witness :
    (Gateway.init.areas = []) ∧ (Gateway.init.zones = [])
    ∧ (async_load_parameters net8 Gateway.init = .ok (true, st8))
    ∧ (async_load_parameters net8 st8 = .ok (true, st8b))
    ∧ loadTwiceOk st8 st8b true :=
  ⟨rfl, rfl, rfl, rfl,
    c9_load_twice_same_content_fresh_instances net8 Gateway.init rfl rfl
      st8 true st8b rfl rfl⟩

end SpcWeb
